import Mathlib

/-!
# seek-tune: the SQLite client of the song catalog and the fingerprint index

A shallow embedding of `utils/dbClient.go`.

* The Go methods of `DbClient` become functions that take the client state and
  return the Go results together with the next client state.
* `database/sql` and the SQLite engine are modelled by `DbClient.call` (one call
  into the driver), `DbClient.Exec`, `DbClient.Query`, `DbClient.QueryRowScan`
  and the transaction type `Tx`.
* Every call into the driver is appended to `DbClient.trace`; the storage
  failure met by the n-th call, if any, is `DbClient.faults n`.
* `uint32` values are natural numbers; the client does no arithmetic on them.
* Go strings are Lean strings; the one string test of the client,
  `strings.Contains`, is against the ASCII constant `FILTER_KEYS`.
* Calls run one after the other; concurrent writers are outside the model.
* A Go map argument is the list of its entries in the order the `range` loop
  visits them; a Go map result is a `CoupleMap`.
-/

set_option autoImplicit false

namespace SeekTune

/-! ## Data model -/

/-- The Go type `models.Couple`: an anchor time and a song identifier. -/
structure Couple where
  AnchorTimeMs : Nat
  SongID : Nat
deriving DecidableEq, Repr

/-- The Go type `Song` returned by the lookups. -/
structure Song where
  Title : String
  Artist : String
  YouTubeID : String
deriving DecidableEq, Repr

/-- The zero value `Song{}`. -/
def Song.zero : Song := ⟨"", "", ""⟩

/-- A value bound to a `?` placeholder (the Go `interface{}` argument). -/
inductive Value where
  | int (n : Nat)
  | text (s : String)
deriving DecidableEq, Repr

/-- One row of table `songs`. -/
structure SongRow where
  id : Nat
  title : String
  artist : String
  ytID : String
  key : String
deriving DecidableEq, Repr

/-- One row of table `fingerprints`. -/
structure FingerprintRow where
  address : Nat
  anchorTimeMs : Nat
  songID : Nat
deriving DecidableEq, Repr

/-- The committed content of the two tables. -/
structure Tables where
  songs : List SongRow
  fingerprints : List FingerprintRow
deriving DecidableEq, Repr

/-- The statements and cursor calls the client hands to the driver. The text
that the Go code splices into a statement with `Sprintf` is kept as a string. -/
inductive Stmt where
  | begin
  | commit
  | rollback
  | upsertFingerprint (address anchorTimeMs songID : Nat)
  | selectCouples (address : Nat)
  | rowsNext
  | rowsScan
  | countSongs
  | insertSong (id : Nat) (title artist ytID key : String)
  | selectSong (whereColumn : String) (value : Value)
  | deleteSong (id : Nat)
  | deleteFrom (tableName : String)
deriving DecidableEq, Repr

/-- What `Scan` of a `QueryRow` can report: the sentinel `sql.ErrNoRows`, or an
error of the driver. -/
inductive SqlErr where
  | noRows
  | driver (msg : String)
deriving DecidableEq, Repr

/-- The client: the committed tables, the storage failures the environment
will inject (by number of the driver call) and the driver calls made so far. -/
structure DbClient where
  tables : Tables
  faults : Nat → Option String
  trace : List Stmt

/-- A Go `map[uint32][]models.Couple`: entries with pairwise distinct keys. -/
abbrev CoupleMap := List (Nat × List Couple)

/-- The Go assignment `m[k] = v`. -/
def CoupleMap.set (m : CoupleMap) (k : Nat) (v : List Couple) : CoupleMap :=
  (k, v) :: m.filter (fun e => e.1 != k)

/-- The Go lookup `m[k]` with its presence flag. -/
def CoupleMap.get? (m : CoupleMap) (k : Nat) : Option (List Couple) :=
  List.lookup k m

/-- The keys of a Go map. -/
def CoupleMap.keys (m : CoupleMap) : List Nat :=
  m.map Prod.fst

/-! ## The storage engine -/

/-- The effect of `INSERT ... ON CONFLICT(address) DO UPDATE SET ...` on the rows
of `fingerprints`: the row at the address is overwritten, or a row is added. -/
def upsertRows (rows : List FingerprintRow) (address anchorTimeMs songID : Nat) :
    List FingerprintRow :=
  if rows.any (fun r => r.address == address) then
    rows.map (fun r => if r.address == address then ⟨address, anchorTimeMs, songID⟩ else r)
  else
    rows ++ [⟨address, anchorTimeMs, songID⟩]

/-- The effect of `INSERT ... ON CONFLICT(key) DO NOTHING` on the rows of `songs`. -/
def insertSongRow (rows : List SongRow) (row : SongRow) : List SongRow :=
  if rows.any (fun r => r.key == row.key) then rows else rows ++ [row]

/-- Modelled from the spec: the schema of the two tables is created outside
`dbClient.go`; section 6 of the specification gives `key` as the one unique
column of `songs` and `address` as the one unique column of `fingerprints`.
This is the effect of one write statement on the tables under that schema.
Table and column names are matched exactly; any other text in their place is
refused by the engine. -/
def applyStmt (t : Tables) : Stmt → Except String Tables
  | .upsertFingerprint address anchorTimeMs songID =>
    .ok { t with fingerprints := upsertRows t.fingerprints address anchorTimeMs songID }
  | .insertSong id title artist ytID key =>
    .ok { t with songs := insertSongRow t.songs ⟨id, title, artist, ytID, key⟩ }
  | .deleteSong id =>
    .ok { t with songs := t.songs.filter (fun r => r.id != id) }
  | .deleteFrom tableName =>
    if tableName = "songs" then .ok { t with songs := [] }
    else if tableName = "fingerprints" then .ok { t with fingerprints := [] }
    else .error ("no such table: " ++ tableName)
  | _ => .ok t

/-- The column of `songs` that a name in a `WHERE` clause denotes. Names are
matched exactly; a text that is no column name is refused by the engine. -/
def songColumn (name : String) : Option (SongRow → Value) :=
  if name = "id" then some (fun r => .int r.id)
  else if name = "title" then some (fun r => .text r.title)
  else if name = "artist" then some (fun r => .text r.artist)
  else if name = "ytID" then some (fun r => .text r.ytID)
  else if name = "key" then some (fun r => .text r.key)
  else none

/-- One call into the driver: it is recorded in the trace and meets the
storage failure planned for its number, if any. -/
def DbClient.call (db : DbClient) (s : Stmt) : Option String × DbClient :=
  (db.faults db.trace.length, { db with trace := db.trace ++ [s] })

/-- The Go call `db.db.Exec(stmt, args...)` outside a transaction: the statement is
committed on success and has no effect on failure. -/
def DbClient.Exec (db : DbClient) (s : Stmt) : Option String × DbClient :=
  match db.call s with
  | (some err, db1) => (some err, db1)
  | (none, db1) =>
    match applyStmt db1.tables s with
    | .error err => (some err, db1)
    | .ok t => (none, { db1 with tables := t })

/-- An open transaction: the connection and the uncommitted tables. -/
structure Tx where
  db : DbClient
  work : Tables

/-- The Go call `db.db.Begin()`. -/
def DbClient.Begin (db : DbClient) : Except String Tx × DbClient :=
  match db.call .begin with
  | (some err, db1) => (.error err, db1)
  | (none, db1) => (.ok ⟨db1, db1.tables⟩, db1)

/-- The Go call `tx.Exec(stmt, args...)`: the statement acts on the uncommitted tables. -/
def Tx.Exec (tx : Tx) (s : Stmt) : Option String × Tx :=
  match tx.db.call s with
  | (some err, db1) => (some err, { tx with db := db1 })
  | (none, db1) =>
    match applyStmt tx.work s with
    | .error err => (some err, { tx with db := db1 })
    | .ok t => (none, ⟨db1, t⟩)

/-- The Go call `tx.Rollback()`: the uncommitted tables are dropped. -/
def Tx.Rollback (tx : Tx) : Option String × DbClient :=
  tx.db.call .rollback

/-- The Go call `tx.Commit()`: on success the uncommitted tables become the committed
ones; on failure the driver rolls the transaction back. -/
def Tx.Commit (tx : Tx) : Option String × DbClient :=
  match tx.db.call .commit with
  | (some err, db1) => (some err, db1)
  | (none, db1) => (none, { db1 with tables := tx.work })

/-- The Go call `db.db.Query` for the one `SELECT` of `GetCouples`: the cursor holds the
rows at the address, in table order. -/
def DbClient.Query (db : DbClient) (address : Nat) :
    Except String (List FingerprintRow) × DbClient :=
  match db.call (.selectCouples address) with
  | (some err, db1) => (.error err, db1)
  | (none, db1) => (.ok (db1.tables.fingerprints.filter (fun r => r.address == address)), db1)

/-- The Go call `db.db.QueryRow(...).Scan(&count)` for `SELECT COUNT(*) FROM songs`. -/
def DbClient.QueryRowCount (db : DbClient) : Except String Nat × DbClient :=
  match db.call .countSongs with
  | (some err, db1) => (.error err, db1)
  | (none, db1) => (.ok db1.tables.songs.length, db1)

/-- The Go call `db.db.QueryRow(query, value)` followed by `row.Scan` for the `SELECT` of
`GetSong`: the first row whose column equals the bound value. -/
def DbClient.QueryRowScan (db : DbClient) (whereColumn : String) (value : Value) :
    Except SqlErr Song × DbClient :=
  match db.call (.selectSong whereColumn value) with
  | (some err, db1) => (.error (.driver err), db1)
  | (none, db1) =>
    match songColumn whereColumn with
    | none => (.error (.driver ("no such column: " ++ whereColumn)), db1)
    | some col =>
      match db1.tables.songs.find? (fun r => col r == value) with
      | none => (.error .noRows, db1)
      | some r => (.ok ⟨r.title, r.artist, r.ytID⟩, db1)

/-! ## The client (`dbClient.go`) -/

/-- The loop of `StoreFingerprints` over the entries of the batch. -/
def storeLoop (tx : Tx) : List (Nat × Couple) → Option String × Tx
  | [] => (none, tx)
  | (address, couple) :: rest =>
    match tx.Exec (.upsertFingerprint address couple.AnchorTimeMs couple.SongID) with
    | (some err, tx1) => (some err, tx1)
    | (none, tx1) => storeLoop tx1 rest

/-- The Go method `StoreFingerprints`. -/
def StoreFingerprints (db : DbClient) (fingerprints : List (Nat × Couple)) :
    Option String × DbClient :=
  match db.Begin with
  | (.error err, db1) => (some err, db1)
  | (.ok tx, _) =>
    match storeLoop tx fingerprints with
    | (some err, tx1) =>
      (some ("error inserting/updating fingerprint: " ++ err), tx1.Rollback.2)
    | (none, tx1) => tx1.Commit

/-- The inner loop of `GetCouples`: `rows.Next()` and `rows.Scan` over the cursor.
When `rows.Next()` fails it returns false like at the end of the rows; the
code never reads `rows.Err()`. -/
def scanCouples (db : DbClient) :
    List FingerprintRow → List Couple → Except String (List Couple) × DbClient
  | [], docCouples => (.ok docCouples, (db.call .rowsNext).2)
  | r :: rest, docCouples =>
    match db.call .rowsNext with
    | (some _, db1) => (.ok docCouples, db1)
    | (none, db1) =>
      match db1.call .rowsScan with
      | (some err, db2) => (.error ("error scanning couple: " ++ err), db2)
      | (none, db2) => scanCouples db2 rest (docCouples ++ [⟨r.anchorTimeMs, r.songID⟩])

/-- The outer loop of `GetCouples` over the requested addresses. The deferred
`rows.Close()` only releases the cursor and is left out. -/
def getCouplesLoop (db : DbClient) :
    List Nat → CoupleMap → (Option CoupleMap × Option String) × DbClient
  | [], couples => ((some couples, none), db)
  | address :: rest, couples =>
    match db.Query address with
    | (.error err, db1) => ((none, some ("error querying fingerprints: " ++ err)), db1)
    | (.ok rows, db1) =>
      match scanCouples db1 rows [] with
      | (.error err, db2) => ((none, some err), db2)
      | (.ok docCouples, db2) => getCouplesLoop db2 rest (couples.set address docCouples)

/-- The Go method `GetCouples`. -/
def GetCouples (db : DbClient) (addresses : List Nat) :
    (Option CoupleMap × Option String) × DbClient :=
  getCouplesLoop db addresses []

/-- The Go method `TotalSongs`. -/
def TotalSongs (db : DbClient) : (Nat × Option String) × DbClient :=
  match db.QueryRowCount with
  | (.error err, db1) => ((0, some ("error counting songs: " ++ err)), db1)
  | (.ok count, db1) => ((count, none), db1)

/-- The Go method `RegisterSong`. The helpers `GenerateUniqueID` and `GenerateSongKey`
live outside `dbClient.go`: the key function is a parameter, and `songID` is
the value that the call of `GenerateUniqueID()` returned. -/
def RegisterSong (GenerateSongKey : String → String → String) (db : DbClient)
    (songID : Nat) (songTitle songArtist ytID : String) : (Nat × Option String) × DbClient :=
  let key := GenerateSongKey songTitle songArtist
  match db.Exec (.insertSong songID songTitle songArtist ytID key) with
  | (some err, db1) => ((0, some ("failed to register song: " ++ err)), db1)
  | (none, db1) => ((songID, none), db1)

/-- The Go constant `FILTER_KEYS`. -/
def FILTER_KEYS : String := "id | ytID | key"

/-- The Go function `strings.Contains`: `substr` occurs somewhere within `s`. -/
def stringsContains (s substr : String) : Bool :=
  s.data.tails.any (fun t => substr.data.isPrefixOf t)

/-- The Go method `GetSong`. -/
def GetSong (db : DbClient) (filterKey : String) (value : Value) :
    (Song × Bool × Option String) × DbClient :=
  if !stringsContains FILTER_KEYS filterKey then
    ((Song.zero, false, some "invalid filter key"), db)
  else
    match db.QueryRowScan filterKey value with
    | (.error .noRows, db1) => ((Song.zero, false, none), db1)
    | (.error (.driver err), db1) =>
      ((Song.zero, false, some ("failed to retrieve song: " ++ err)), db1)
    | (.ok song, db1) => ((song, true, none), db1)

/-- The Go method `GetSongByID`. -/
def GetSongByID (db : DbClient) (songID : Nat) : (Song × Bool × Option String) × DbClient :=
  GetSong db "id" (.int songID)

/-- The Go method `GetSongByYTID`. -/
def GetSongByYTID (db : DbClient) (ytID : String) : (Song × Bool × Option String) × DbClient :=
  GetSong db "ytID" (.text ytID)

/-- The Go method `GetSongByKey`. -/
def GetSongByKey (db : DbClient) (key : String) : (Song × Bool × Option String) × DbClient :=
  GetSong db "key" (.text key)

/-- The Go method `DeleteSongByID`. -/
def DeleteSongByID (db : DbClient) (songID : Nat) : Option String × DbClient :=
  match db.Exec (.deleteSong songID) with
  | (some err, db1) => (some ("failed to delete song: " ++ err), db1)
  | (none, db1) => (none, db1)

/-- The Go method `DeleteCollection`. -/
def DeleteCollection (db : DbClient) (tableName : String) : Option String × DbClient :=
  match db.Exec (.deleteFrom tableName) with
  | (some err, db1) => (some ("error deleting table: " ++ err), db1)
  | (none, db1) => (none, db1)

/-! ## Predicates used by the statements -/

/-- From now on no driver call meets a storage failure. -/
def NoFaults (db : DbClient) : Prop := ∀ n, db.trace.length ≤ n → db.faults n = none

/-- The schema constraint on `fingerprints`: no two rows share an address. -/
def UniqueAddress (t : Tables) : Prop :=
  (t.fingerprints.map (fun r => r.address)).Nodup

/-- The schema constraint on `songs`: no two rows share a key. -/
def UniqueKey (t : Tables) : Prop :=
  (t.songs.map (fun r => r.key)).Nodup

/-- The couples stored at an address, in table order. -/
def couplesAt (t : Tables) (address : Nat) : List Couple :=
  (t.fingerprints.filter (fun r => r.address == address)).map
    (fun r => ⟨r.anchorTimeMs, r.songID⟩)

/-- The index states that `StoreFingerprints` and `DeleteCollection` produce
from an empty index. -/
inductive Reachable : DbClient → Prop where
  | empty (songs : List SongRow) (faults : Nat → Option String) (trace : List Stmt) :
      Reachable ⟨⟨songs, []⟩, faults, trace⟩
  | store (db : DbClient) (fingerprints : List (Nat × Couple)) :
      Reachable db → Reachable (StoreFingerprints db fingerprints).2
  | delete (db : DbClient) (tableName : String) :
      Reachable db → Reachable (DeleteCollection db tableName).2

/-- The rows of `fingerprints` after the upserts of a whole batch, in loop order. -/
def upsertAll (rows : List FingerprintRow) : List (Nat × Couple) → List FingerprintRow
  | [] => rows
  | (address, couple) :: rest =>
    upsertAll (upsertRows rows address couple.AnchorTimeMs couple.SongID) rest

/-! ## Sample states -/

/-- A stand-in for the key function, for the sample states only. -/
def sampleKey (title artist : String) : String := title ++ "---" ++ artist

/-- An empty store whose driver never fails. -/
def emptyDb : DbClient := ⟨⟨[], []⟩, fun _ => none, []⟩

/-- One song in the catalog and one row in the index, on a driver that never fails. -/
def sampleDb : DbClient :=
  ⟨⟨[⟨7, "Song A", "Artist X", "yt123", "Song A---Artist X"⟩], [⟨42, 1000, 7⟩]⟩,
    fun _ => none, []⟩

/-- The sample store on a driver whose second call (number 1) meets a disk failure. -/
def flakyDb : DbClient :=
  { sampleDb with faults := fun n => if n = 1 then some "disk I/O error" else none }

/-! ## The driver calls -/

theorem call_tables (db : DbClient) (s : Stmt) : (db.call s).2.tables = db.tables := rfl

theorem call_faults (db : DbClient) (s : Stmt) : (db.call s).2.faults = db.faults := rfl

theorem call_trace (db : DbClient) (s : Stmt) : (db.call s).2.trace = db.trace ++ [s] := rfl

theorem NoFaults.call_fst {db : DbClient} (h : NoFaults db) (s : Stmt) :
    (db.call s).1 = none := h _ le_rfl

theorem NoFaults.call_snd {db : DbClient} (h : NoFaults db) (s : Stmt) :
    NoFaults (db.call s).2 := by
  intro n hn
  have hlen : db.trace.length ≤ n := by
    simp only [call_trace, List.length_append, List.length_singleton] at hn
    omega
  simpa [call_faults] using h n hlen

/-! ## The upsert on the rows of `fingerprints` -/

theorem upsertRows_addresses (rows : List FingerprintRow) (a x y : Nat) :
    (upsertRows rows a x y).map (fun r => r.address) =
      if a ∈ rows.map (fun r => r.address) then rows.map (fun r => r.address)
      else rows.map (fun r => r.address) ++ [a] := by
  unfold upsertRows
  by_cases h : a ∈ rows.map (fun r => r.address)
  · have hany : rows.any (fun r => r.address == a) = true := by
      simp only [List.mem_map] at h
      obtain ⟨r, hr, hra⟩ := h
      simp only [List.any_eq_true, beq_iff_eq]
      exact ⟨r, hr, hra⟩
    rw [if_pos hany, if_pos h, List.map_map]
    apply List.map_congr_left
    intro r _
    by_cases hr : r.address = a <;> simp [hr]
  · have hany : ¬ rows.any (fun r => r.address == a) = true := by
      simp only [List.any_eq_true, beq_iff_eq, not_exists, not_and]
      intro r hr hra
      exact h (List.mem_map.2 ⟨r, hr, hra⟩)
    rw [if_neg hany, if_neg h]
    simp

theorem upsertRows_nodup (rows : List FingerprintRow) (a x y : Nat)
    (h : (rows.map (fun r => r.address)).Nodup) :
    ((upsertRows rows a x y).map (fun r => r.address)).Nodup := by
  rw [upsertRows_addresses]
  split
  · exact h
  · rename_i hna
    rw [List.nodup_append]
    refine ⟨h, List.nodup_singleton a, ?_⟩
    intro b hb hb2
    rw [List.mem_singleton] at hb2
    exact hna (hb2 ▸ hb)

theorem updateRows_filter_ne (rows : List FingerprintRow) (a x y b : Nat) (hb : b ≠ a) :
    (rows.map (fun r => if r.address == a then (⟨a, x, y⟩ : FingerprintRow) else r)).filter
        (fun r => r.address == b) =
      rows.filter (fun r => r.address == b) := by
  induction rows with
  | nil => rfl
  | cons r rs ih =>
    rw [List.map_cons, List.filter_cons, List.filter_cons, ih]
    by_cases hr : r.address = a
    · have hrb : ¬ r.address = b := fun h => hb (h.symm.trans hr)
      have hab : ¬ a = b := fun h => hb h.symm
      simp [hr, hab]
    · simp [hr]

theorem upsertRows_filter_ne (rows : List FingerprintRow) (a x y b : Nat) (hb : b ≠ a) :
    (upsertRows rows a x y).filter (fun r => r.address == b) =
      rows.filter (fun r => r.address == b) := by
  unfold upsertRows
  split
  · exact updateRows_filter_ne rows a x y b hb
  · simp [List.filter_append, List.filter_cons, hb.symm]

theorem updateRows_of_not_mem (rows : List FingerprintRow) (a x y : Nat)
    (h : a ∉ rows.map (fun r => r.address)) :
    rows.map (fun r => if r.address == a then (⟨a, x, y⟩ : FingerprintRow) else r) = rows := by
  induction rows with
  | nil => rfl
  | cons r rs ih =>
    simp only [List.map_cons, List.mem_cons, not_or] at h
    have hr : ¬ r.address = a := fun e => h.1 e.symm
    simp only [List.map_cons, beq_iff_eq, hr, if_false]
    congr 1
    simpa using ih h.2

theorem filter_of_not_mem (rows : List FingerprintRow) (a : Nat)
    (h : a ∉ rows.map (fun r => r.address)) :
    rows.filter (fun r => r.address == a) = [] := by
  rw [List.filter_eq_nil_iff]
  intro r hr
  simp only [beq_iff_eq]
  intro e
  exact h (List.mem_map.2 ⟨r, hr, e⟩)

theorem upsertRows_filter_self (rows : List FingerprintRow) (a x y : Nat)
    (h : (rows.map (fun r => r.address)).Nodup) :
    (upsertRows rows a x y).filter (fun r => r.address == a) = [⟨a, x, y⟩] := by
  unfold upsertRows
  split
  · rename_i hany
    induction rows with
    | nil => simp at hany
    | cons r rs ih =>
      simp only [List.map_cons, List.nodup_cons] at h
      by_cases hr : r.address = a
      · have hrs : a ∉ rs.map (fun r => r.address) := hr ▸ h.1
        have h1 := updateRows_of_not_mem rs a x y hrs
        simp only [beq_iff_eq] at h1
        simp only [List.map_cons, beq_iff_eq, hr, if_true, h1]
        rw [List.filter_cons]
        simp only [beq_self_eq_true, if_true]
        rw [filter_of_not_mem rs a hrs]
      · have hany2 : rs.any (fun r => r.address == a) = true := by
          simpa [hr] using hany
        simp only [List.map_cons, beq_iff_eq, hr, if_false]
        rw [List.filter_cons]
        simp only [beq_iff_eq, hr, if_false]
        simpa using ih h.2 hany2
  · rename_i hany
    have hna : a ∉ rows.map (fun r => r.address) := by
      intro hmem
      apply hany
      obtain ⟨r, hr, hra⟩ := List.mem_map.1 hmem
      simp only [List.any_eq_true, beq_iff_eq]
      exact ⟨r, hr, hra⟩
    rw [List.filter_append, filter_of_not_mem rows a hna]
    simp [List.filter_cons]

theorem filter_length_le_one (rows : List FingerprintRow) (a : Nat)
    (h : (rows.map (fun r => r.address)).Nodup) :
    (rows.filter (fun r => r.address == a)).length ≤ 1 := by
  induction rows with
  | nil => simp
  | cons r rs ih =>
    simp only [List.map_cons, List.nodup_cons] at h
    rw [List.filter_cons]
    by_cases hr : r.address = a
    · have hrs : a ∉ rs.map (fun r => r.address) := hr ▸ h.1
      simp [hr, filter_of_not_mem rs a hrs]
    · simpa [hr] using ih h.2

/-! ## `StoreFingerprints` -/

theorem storeLoop_conn (tx : Tx) (m : List (Nat × Couple)) :
    (storeLoop tx m).2.db.tables = tx.db.tables ∧
      (storeLoop tx m).2.db.faults = tx.db.faults := by
  induction m generalizing tx with
  | nil => exact ⟨rfl, rfl⟩
  | cons e rest ih =>
    obtain ⟨a, c⟩ := e
    simp only [storeLoop, Tx.Exec, DbClient.call, applyStmt]
    cases h : tx.db.faults tx.db.trace.length with
    | some err => exact ⟨rfl, rfl⟩
    | none => exact ih _

theorem storeLoop_ok (tx : Tx) (m : List (Nat × Couple)) (h : (storeLoop tx m).1 = none) :
    (∀ k, k < m.length → tx.db.faults (tx.db.trace.length + k) = none) ∧
      (storeLoop tx m).2.db.trace.length = tx.db.trace.length + m.length ∧
      (storeLoop tx m).2.work = ⟨tx.work.songs, upsertAll tx.work.fingerprints m⟩ := by
  induction m generalizing tx with
  | nil =>
    refine ⟨?_, rfl, rfl⟩
    intro k hk
    simp at hk
  | cons e rest ih =>
    obtain ⟨a, c⟩ := e
    simp only [storeLoop, Tx.Exec, DbClient.call, applyStmt] at h ⊢
    cases hf : tx.db.faults tx.db.trace.length with
    | some err => simp [hf] at h
    | none =>
      simp only [hf] at h ⊢
      obtain ⟨h1, h2, h3⟩ := ih _ h
      refine ⟨?_, ?_, ?_⟩
      · intro k hk
        cases k with
        | zero => simpa using hf
        | succ j =>
          have := h1 j (by simpa using hk)
          simp only [List.length_append, List.length_singleton] at this
          rw [← this]
          congr 1
          omega
      · simp only [List.length_append, List.length_cons, List.length_nil] at h2 ⊢
        omega
      · rw [h3]
        rfl

theorem storeLoop_noFaults (tx : Tx) (m : List (Nat × Couple)) (h : NoFaults tx.db) :
    (storeLoop tx m).1 = none ∧ NoFaults (storeLoop tx m).2.db := by
  induction m generalizing tx with
  | nil => exact ⟨rfl, h⟩
  | cons e rest ih =>
    obtain ⟨a, c⟩ := e
    have hf : tx.db.faults tx.db.trace.length = none := h _ le_rfl
    simp only [storeLoop, Tx.Exec, DbClient.call, applyStmt, hf]
    exact ih _ (h.call_snd _)

theorem storeFingerprints_err (db : DbClient) (m : List (Nat × Couple))
    (h : (StoreFingerprints db m).1 ≠ none) : (StoreFingerprints db m).2.tables = db.tables := by
  simp only [StoreFingerprints, DbClient.Begin, DbClient.call] at h ⊢
  cases hf : db.faults db.trace.length with
  | some err => rfl
  | none =>
    simp only [hf] at h ⊢
    cases hl : (storeLoop ⟨{ db with trace := db.trace ++ [Stmt.begin] }, db.tables⟩ m).1 with
    | some err =>
      have hc := (storeLoop_conn ⟨{ db with trace := db.trace ++ [Stmt.begin] }, db.tables⟩ m).1
      generalize storeLoop ⟨{ db with trace := db.trace ++ [Stmt.begin] }, db.tables⟩ m = res at hl hc h ⊢
      obtain ⟨e, tx1⟩ := res
      simp only at hl
      subst hl
      simpa [Tx.Rollback, DbClient.call] using hc
    | none =>
      have hc := (storeLoop_conn ⟨{ db with trace := db.trace ++ [Stmt.begin] }, db.tables⟩ m).1
      generalize storeLoop ⟨{ db with trace := db.trace ++ [Stmt.begin] }, db.tables⟩ m = res at hl hc h ⊢
      obtain ⟨e, tx1⟩ := res
      simp only at hl
      subst hl
      simp only [Tx.Commit, DbClient.call] at h ⊢
      cases hcm : tx1.db.faults tx1.db.trace.length with
      | some err => simpa [hcm] using hc
      | none => simp [hcm] at h

theorem storeFingerprints_ok (db : DbClient) (m : List (Nat × Couple))
    (h : (StoreFingerprints db m).1 = none) :
    (StoreFingerprints db m).2.tables =
        ⟨db.tables.songs, upsertAll db.tables.fingerprints m⟩ ∧
      (StoreFingerprints db m).2.faults = db.faults ∧
      ∀ k, k ≤ m.length + 1 → db.faults (db.trace.length + k) = none := by
  simp only [StoreFingerprints, DbClient.Begin, DbClient.call] at h ⊢
  cases hf : db.faults db.trace.length with
  | some err => simp [hf] at h
  | none =>
    simp only [hf] at h ⊢
    have hc := storeLoop_conn ⟨{ db with trace := db.trace ++ [Stmt.begin] }, db.tables⟩ m
    have hok := storeLoop_ok ⟨{ db with trace := db.trace ++ [Stmt.begin] }, db.tables⟩ m
    generalize storeLoop ⟨{ db with trace := db.trace ++ [Stmt.begin] }, db.tables⟩ m = res
      at hc hok h ⊢
    obtain ⟨e, tx1⟩ := res
    cases e with
    | some err => simp at h
    | none =>
      simp only [Tx.Commit, DbClient.call] at h ⊢
      obtain ⟨h1, h2, h3⟩ := hok rfl
      simp only [List.length_append, List.length_singleton] at h1 h2
      simp only at h2 h3 hc
      cases hcm : tx1.db.faults tx1.db.trace.length with
      | some err => simp [hcm] at h
      | none =>
        simp only [hcm]
        refine ⟨h3, hc.2, ?_⟩
        intro k hk
        rcases Nat.eq_zero_or_pos k with rfl | hpos
        · simpa using hf
        · by_cases hlast : k = m.length + 1
          · rw [hc.2, h2] at hcm
            rw [← hcm, hlast]
            congr 1
            omega
          · have := h1 (k - 1) (by omega)
            rw [← this]
            congr 1
            omega

theorem storeFingerprints_noFaults (db : DbClient) (m : List (Nat × Couple))
    (h : NoFaults db) :
    (StoreFingerprints db m).1 = none ∧ NoFaults (StoreFingerprints db m).2 := by
  have hf : db.faults db.trace.length = none := h _ le_rfl
  simp only [StoreFingerprints, DbClient.Begin, DbClient.call, hf]
  have hl := storeLoop_noFaults ⟨{ db with trace := db.trace ++ [Stmt.begin] }, db.tables⟩ m
    (h.call_snd _)
  generalize storeLoop ⟨{ db with trace := db.trace ++ [Stmt.begin] }, db.tables⟩ m = res at hl ⊢
  obtain ⟨e, tx1⟩ := res
  obtain ⟨h1, h2⟩ := hl
  simp only at h1 h2
  subst h1
  have hcm : tx1.db.faults tx1.db.trace.length = none := h2 _ le_rfl
  simp only [Tx.Commit, DbClient.call, hcm]
  refine ⟨trivial, ?_⟩
  exact (h2.call_snd Stmt.commit)

theorem upsertAll_nodup (rows : List FingerprintRow) (m : List (Nat × Couple))
    (h : (rows.map (fun r => r.address)).Nodup) :
    ((upsertAll rows m).map (fun r => r.address)).Nodup := by
  induction m generalizing rows with
  | nil => exact h
  | cons e rest ih =>
    obtain ⟨a, c⟩ := e
    exact ih _ (upsertRows_nodup rows a _ _ h)

theorem upsertAll_filter_of_not_mem (rows : List FingerprintRow) (m : List (Nat × Couple))
    (a : Nat) (h : a ∉ m.map Prod.fst) :
    (upsertAll rows m).filter (fun r => r.address == a) =
      rows.filter (fun r => r.address == a) := by
  induction m generalizing rows with
  | nil => rfl
  | cons e rest ih =>
    obtain ⟨b, c⟩ := e
    simp only [List.map_cons, List.mem_cons, not_or] at h
    simp only [upsertAll]
    rw [ih _ h.2, upsertRows_filter_ne rows b _ _ a h.1]

theorem upsertAll_filter_of_mem (rows : List FingerprintRow) (m : List (Nat × Couple))
    (a : Nat) (c : Couple) (hrows : (rows.map (fun r => r.address)).Nodup)
    (hm : (m.map Prod.fst).Nodup) (hac : (a, c) ∈ m) :
    (upsertAll rows m).filter (fun r => r.address == a) = [⟨a, c.AnchorTimeMs, c.SongID⟩] := by
  induction m generalizing rows with
  | nil => simp at hac
  | cons e rest ih =>
    obtain ⟨b, d⟩ := e
    simp only [List.map_cons, List.nodup_cons] at hm
    simp only [upsertAll]
    rcases List.mem_cons.1 hac with heq | hrest
    · obtain ⟨rfl, rfl⟩ := Prod.mk.inj heq
      rw [upsertAll_filter_of_not_mem _ rest a hm.1]
      exact upsertRows_filter_self rows a _ _ hrows
    · exact ih _ (upsertRows_nodup rows b _ _ hrows) hm.2 hrest

/-! ## Go maps -/

theorem CoupleMap.get?_set_self (m : CoupleMap) (k : Nat) (v : List Couple) :
    (m.set k v).get? k = some v := by
  simp [CoupleMap.set, CoupleMap.get?, List.lookup]

theorem CoupleMap.get?_filter_ne (m : CoupleMap) (k a : Nat) (h : a ≠ k) :
    List.lookup a (m.filter (fun e => e.1 != k)) = List.lookup a m := by
  induction m with
  | nil => rfl
  | cons e rest ih =>
    obtain ⟨b, w⟩ := e
    rw [List.filter_cons]
    by_cases hb : b = k
    · subst hb
      have hab : (a == b) = false := by simpa using h
      simp [List.lookup, hab, ih]
    · have hbk : (b != k) = true := by simpa using hb
      simp only [hbk, if_true, List.lookup]
      rw [ih]

theorem CoupleMap.get?_set_ne (m : CoupleMap) (k a : Nat) (v : List Couple) (h : a ≠ k) :
    (m.set k v).get? a = m.get? a := by
  have hak : (a == k) = false := by simpa using h
  simp only [CoupleMap.set, CoupleMap.get?, List.lookup, hak]
  exact CoupleMap.get?_filter_ne m k a h

theorem CoupleMap.mem_keys_set (m : CoupleMap) (k a : Nat) (v : List Couple) :
    a ∈ (m.set k v).keys ↔ a = k ∨ a ∈ m.keys := by
  simp only [CoupleMap.set, CoupleMap.keys, List.map_cons, List.mem_cons, List.mem_map,
    List.mem_filter, bne_iff_ne, ne_eq]
  constructor
  · rintro (h | ⟨e, ⟨he, _⟩, rfl⟩)
    · exact Or.inl h
    · exact Or.inr ⟨e, he, rfl⟩
  · rintro (h | ⟨e, he, rfl⟩)
    · exact Or.inl h
    · by_cases hk : e.1 = k
      · exact Or.inl hk
      · exact Or.inr ⟨e, ⟨he, hk⟩, rfl⟩

theorem CoupleMap.nodup_keys_set (m : CoupleMap) (k : Nat) (v : List Couple)
    (h : m.keys.Nodup) : (m.set k v).keys.Nodup := by
  simp only [CoupleMap.set, CoupleMap.keys, List.map_cons, List.nodup_cons]
  constructor
  · simp only [List.mem_map, List.mem_filter, bne_iff_ne, ne_eq, not_exists, not_and]
    rintro e ⟨_, hk⟩ rfl
    exact hk rfl
  · exact (List.filter_sublist _).map Prod.fst |>.nodup h

/-! ## `GetCouples` -/

theorem scanCouples_conn (db : DbClient) (rows : List FingerprintRow) (acc : List Couple) :
    (scanCouples db rows acc).2.tables = db.tables := by
  induction rows generalizing db acc with
  | nil => rfl
  | cons r rest ih =>
    simp only [scanCouples, DbClient.call]
    cases h1 : db.faults db.trace.length with
    | some err => rfl
    | none =>
      simp only
      cases h2 : db.faults (db.trace ++ [Stmt.rowsNext]).length with
      | some err => rfl
      | none => exact ih _ _

theorem scanCouples_length (db : DbClient) (rows : List FingerprintRow) (acc l : List Couple)
    (h : (scanCouples db rows acc).1 = .ok l) : l.length ≤ acc.length + rows.length := by
  induction rows generalizing db acc with
  | nil =>
    simp only [scanCouples, Except.ok.injEq] at h
    simp [← h]
  | cons r rest ih =>
    simp only [scanCouples, DbClient.call] at h
    cases h1 : db.faults db.trace.length with
    | some err =>
      simp only [h1, Except.ok.injEq] at h
      simp [← h]
    | none =>
      simp only [h1] at h
      cases h2 : db.faults (db.trace ++ [Stmt.rowsNext]).length with
      | some err => simp only [h2, reduceCtorEq] at h
      | none =>
        simp only [h2] at h
        have := ih _ _ h
        simp only [List.length_append, List.length_cons, List.length_nil] at this ⊢
        omega

theorem scanCouples_noFaults (db : DbClient) (rows : List FingerprintRow) (acc : List Couple)
    (h : NoFaults db) :
    (scanCouples db rows acc).1 =
        .ok (acc ++ rows.map (fun r => (⟨r.anchorTimeMs, r.songID⟩ : Couple))) ∧
      NoFaults (scanCouples db rows acc).2 := by
  induction rows generalizing db acc with
  | nil =>
    refine ⟨?_, h.call_snd _⟩
    simp [scanCouples]
  | cons r rest ih =>
    have h1 : db.faults db.trace.length = none := h _ le_rfl
    have h2 : db.faults (db.trace ++ [Stmt.rowsNext]).length = none :=
      h _ (by simp)
    simp only [scanCouples, DbClient.call, h1, h2]
    obtain ⟨i1, i2⟩ := ih { db with trace := db.trace ++ [Stmt.rowsNext] ++ [Stmt.rowsScan] }
      (acc ++ [⟨r.anchorTimeMs, r.songID⟩]) ((h.call_snd _).call_snd _)
    refine ⟨?_, i2⟩
    rw [i1]
    simp

theorem getCouplesLoop_noFaults (db : DbClient) (addrs : List Nat) (couples : CoupleMap)
    (h : NoFaults db) :
    ∃ res, (getCouplesLoop db addrs couples).1 = (some res, none) ∧
      (∀ a, a ∈ res.keys ↔ a ∈ addrs ∨ a ∈ couples.keys) ∧
      (∀ a, a ∈ addrs → res.get? a = some (couplesAt db.tables a)) ∧
      (∀ a, a ∉ addrs → res.get? a = couples.get? a) ∧
      (couples.keys.Nodup → res.keys.Nodup) := by
  induction addrs generalizing db couples with
  | nil =>
    refine ⟨couples, rfl, ?_, ?_, ?_, ?_⟩
    · intro a; simp
    · intro a ha; simp at ha
    · intro a _; rfl
    · exact id
  | cons x rest ih =>
    have h1 : db.faults db.trace.length = none := h _ le_rfl
    simp only [getCouplesLoop, DbClient.Query, DbClient.call, h1]
    have hs := scanCouples_noFaults { db with trace := db.trace ++ [Stmt.selectCouples x] }
      (db.tables.fingerprints.filter (fun r => r.address == x)) [] (h.call_snd _)
    have hc := scanCouples_conn { db with trace := db.trace ++ [Stmt.selectCouples x] }
      (db.tables.fingerprints.filter (fun r => r.address == x)) []
    generalize scanCouples { db with trace := db.trace ++ [Stmt.selectCouples x] }
      (db.tables.fingerprints.filter (fun r => r.address == x)) [] = res at hs hc ⊢
    obtain ⟨e, db2⟩ := res
    obtain ⟨hs1, hs2⟩ := hs
    simp only at hs1 hs2 hc
    subst hs1
    simp only [List.nil_append]
    obtain ⟨res, hres, hk, hin, hout, hnd⟩ := ih db2
      (couples.set x ((db.tables.fingerprints.filter (fun r => r.address == x)).map
        (fun r => (⟨r.anchorTimeMs, r.songID⟩ : Couple)))) hs2
    refine ⟨res, hres, ?_, ?_, ?_, ?_⟩
    · intro a
      rw [hk a, CoupleMap.mem_keys_set, List.mem_cons]
      tauto
    · intro a ha
      by_cases har : a ∈ rest
      · rw [hin a har, hc]
      · have hax : a = x := by
          rcases List.mem_cons.1 ha with e | e
          · exact e
          · exact absurd e har
        subst hax
        rw [hout a har, CoupleMap.get?_set_self]
        rfl
    · intro a ha
      simp only [List.mem_cons, not_or] at ha
      rw [hout a ha.2, CoupleMap.get?_set_ne _ _ _ _ ha.1]
    · intro hcn
      exact hnd (CoupleMap.nodup_keys_set _ _ _ hcn)

theorem getCouplesLoop_bound (db : DbClient) (addrs : List Nat) (couples res : CoupleMap)
    (hb : ∀ a, (db.tables.fingerprints.filter (fun r => r.address == a)).length ≤ 1)
    (h : (getCouplesLoop db addrs couples).1.1 = some res) (a : Nat) (cs : List Couple)
    (hcs : res.get? a = some cs) : couples.get? a = some cs ∨ cs.length ≤ 1 := by
  induction addrs generalizing db couples with
  | nil =>
    simp only [getCouplesLoop, Option.some.injEq] at h
    subst h
    exact Or.inl hcs
  | cons x rest ih =>
    simp only [getCouplesLoop, DbClient.Query, DbClient.call] at h
    cases h1 : db.faults db.trace.length with
    | some err => simp [h1] at h
    | none =>
      simp only [h1] at h
      have hc := scanCouples_conn { db with trace := db.trace ++ [Stmt.selectCouples x] }
        (db.tables.fingerprints.filter (fun r => r.address == x)) []
      have hl := scanCouples_length { db with trace := db.trace ++ [Stmt.selectCouples x] }
        (db.tables.fingerprints.filter (fun r => r.address == x)) []
      generalize scanCouples { db with trace := db.trace ++ [Stmt.selectCouples x] }
        (db.tables.fingerprints.filter (fun r => r.address == x)) [] = sres at hc hl h
      obtain ⟨e, db2⟩ := sres
      cases e with
      | error err => simp at h
      | ok l =>
        simp only at h hc
        have hlen : l.length ≤ 1 := by
          have := hl l rfl
          have := hb x
          simp only [List.length_nil] at *
          omega
        rcases ih db2 (couples.set x l) (by rw [hc]; exact hb) h with h2 | h2
        · by_cases hax : a = x
          · subst hax
            rw [CoupleMap.get?_set_self] at h2
            right
            rw [← Option.some.inj h2]
            exact hlen
          · rw [CoupleMap.get?_set_ne _ _ _ _ hax] at h2
            exact Or.inl h2
        · exact Or.inr h2

theorem getCouplesLoop_error_no_mapping (db : DbClient) (addrs : List Nat)
    (couples : CoupleMap) (h : (getCouplesLoop db addrs couples).1.2 ≠ none) :
    (getCouplesLoop db addrs couples).1.1 = none := by
  induction addrs generalizing db couples with
  | nil => exact absurd rfl h
  | cons x rest ih =>
    simp only [getCouplesLoop, DbClient.Query, DbClient.call] at h ⊢
    cases h1 : db.faults db.trace.length with
    | some err => rfl
    | none =>
      simp only [h1] at h ⊢
      generalize scanCouples { db with trace := db.trace ++ [Stmt.selectCouples x] }
        (db.tables.fingerprints.filter (fun r => r.address == x)) [] = sres at h ⊢
      obtain ⟨e, db2⟩ := sres
      cases e with
      | error err => rfl
      | ok l => exact ih _ _ h

theorem getCouples_query_failure (db : DbClient) (a : Nat) (rest : List Nat) (err : String)
    (h : db.faults db.trace.length = some err) :
    (GetCouples db (a :: rest)).1 = (none, some ("error querying fingerprints: " ++ err)) := by
  simp only [GetCouples, getCouplesLoop, DbClient.Query, DbClient.call, h]

theorem getCouples_scan_failure (db : DbClient) (a : Nat) (rest : List Nat) (err : String)
    (r : FingerprintRow) (rows : List FingerprintRow)
    (hrows : db.tables.fingerprints.filter (fun r => r.address == a) = r :: rows)
    (h0 : db.faults db.trace.length = none) (h1 : db.faults (db.trace.length + 1) = none)
    (h2 : db.faults (db.trace.length + 2) = some err) :
    (GetCouples db (a :: rest)).1 = (none, some ("error scanning couple: " ++ err)) := by
  simp only [GetCouples, getCouplesLoop, DbClient.Query, DbClient.call, h0, hrows, scanCouples,
    List.length_append, List.length_singleton, h1, h2, Nat.add_assoc]

/-! ## The song catalog -/

theorem songColumn_id : songColumn "id" = some (fun r => .int r.id) := by
  simp [songColumn]

theorem songColumn_ytID : songColumn "ytID" = some (fun r => .text r.ytID) := by
  simp [songColumn]

theorem songColumn_key : songColumn "key" = some (fun r => .text r.key) := by
  simp [songColumn]

theorem getSong_invalid_filter_key (db : DbClient) (filterKey : String) (value : Value)
    (h : stringsContains FILTER_KEYS filterKey = false) :
    GetSong db filterKey value = ((Song.zero, false, some "invalid filter key"), db) := by
  simp [GetSong, h]

theorem getSong_column (db : DbClient) (filterKey : String) (value : Value)
    (col : SongRow → Value) (hk : stringsContains FILTER_KEYS filterKey = true)
    (hc : songColumn filterKey = some col) (hf : db.faults db.trace.length = none) :
    (GetSong db filterKey value).1 =
      match db.tables.songs.find? (fun r => col r == value) with
      | none => (Song.zero, false, none)
      | some r => (⟨r.title, r.artist, r.ytID⟩, true, none) := by
  simp only [GetSong, hk, DbClient.QueryRowScan, DbClient.call, hf, hc]
  cases db.tables.songs.find? (fun r => col r == value) <;> rfl

theorem getSongByID_eq (db : DbClient) (songID : Nat) (hf : db.faults db.trace.length = none) :
    (GetSongByID db songID).1 =
      match db.tables.songs.find? (fun r => r.id == songID) with
      | none => (Song.zero, false, none)
      | some r => (⟨r.title, r.artist, r.ytID⟩, true, none) := by
  have h := getSong_column db "id" (.int songID) _ (by decide) songColumn_id hf
  have hfun : (fun r : SongRow => Value.int r.id == Value.int songID) =
      (fun r => r.id == songID) := by
    funext r
    by_cases e : r.id = songID <;> simp [e]
  rw [hfun] at h
  exact h

theorem getSongByYTID_eq (db : DbClient) (ytID : String)
    (hf : db.faults db.trace.length = none) :
    (GetSongByYTID db ytID).1 =
      match db.tables.songs.find? (fun r => r.ytID == ytID) with
      | none => (Song.zero, false, none)
      | some r => (⟨r.title, r.artist, r.ytID⟩, true, none) := by
  have h := getSong_column db "ytID" (.text ytID) _ (by decide) songColumn_ytID hf
  have hfun : (fun r : SongRow => Value.text r.ytID == Value.text ytID) =
      (fun r => r.ytID == ytID) := by
    funext r
    by_cases e : r.ytID = ytID <;> simp [e]
  rw [hfun] at h
  exact h

theorem getSongByKey_eq (db : DbClient) (key : String)
    (hf : db.faults db.trace.length = none) :
    (GetSongByKey db key).1 =
      match db.tables.songs.find? (fun r => r.key == key) with
      | none => (Song.zero, false, none)
      | some r => (⟨r.title, r.artist, r.ytID⟩, true, none) := by
  have h := getSong_column db "key" (.text key) _ (by decide) songColumn_key hf
  have hfun : (fun r : SongRow => Value.text r.key == Value.text key) =
      (fun r => r.key == key) := by
    funext r
    by_cases e : r.key = key <;> simp [e]
  rw [hfun] at h
  exact h

theorem registerSong_noFaults (K : String → String → String) (db : DbClient) (songID : Nat)
    (title artist ytID : String) (h : NoFaults db) :
    (RegisterSong K db songID title artist ytID).1 = (songID, none) ∧
      (RegisterSong K db songID title artist ytID).2.tables =
        ⟨insertSongRow db.tables.songs ⟨songID, title, artist, ytID, K title artist⟩,
          db.tables.fingerprints⟩ ∧
      NoFaults (RegisterSong K db songID title artist ytID).2 := by
  have hf : db.faults db.trace.length = none := h _ le_rfl
  simp only [RegisterSong, DbClient.Exec, DbClient.call, hf, applyStmt]
  refine ⟨trivial, trivial, ?_⟩
  exact h.call_snd _

theorem insertSongRow_absent (rows : List SongRow) (row : SongRow)
    (h : ∀ r ∈ rows, r.key ≠ row.key) : insertSongRow rows row = rows ++ [row] := by
  unfold insertSongRow
  rw [if_neg]
  simp only [List.any_eq_true, beq_iff_eq, not_exists, not_and]
  exact h

theorem insertSongRow_present (rows : List SongRow) (row : SongRow)
    (h : ∃ r ∈ rows, r.key = row.key) : insertSongRow rows row = rows := by
  unfold insertSongRow
  rw [if_pos]
  simp only [List.any_eq_true, beq_iff_eq]
  exact h

theorem totalSongs_noFaults (db : DbClient) (h : NoFaults db) :
    (TotalSongs db).1 = (db.tables.songs.length, none) := by
  have hf : db.faults db.trace.length = none := h _ le_rfl
  simp only [TotalSongs, DbClient.QueryRowCount, DbClient.call, hf]

theorem registerSong_ok (K : String → String → String) (db : DbClient) (songID : Nat)
    (title artist ytID : String)
    (h : (RegisterSong K db songID title artist ytID).1.2 = none) :
    (RegisterSong K db songID title artist ytID).1.1 = songID ∧
      (RegisterSong K db songID title artist ytID).2.tables =
        ⟨insertSongRow db.tables.songs ⟨songID, title, artist, ytID, K title artist⟩,
          db.tables.fingerprints⟩ := by
  simp only [RegisterSong, DbClient.Exec, DbClient.call, applyStmt] at h ⊢
  cases hf : db.faults db.trace.length with
  | some err => simp [hf] at h
  | none => exact ⟨rfl, rfl⟩

theorem find?_append_new (rows : List SongRow) (row : SongRow) (p : SongRow → Bool)
    (hold : ∀ r ∈ rows, ¬ p r = true) (hnew : p row = true) :
    (rows ++ [row]).find? p = some row := by
  rw [List.find?_append, List.find?_eq_none.2 hold]
  simp [List.find?, hnew]

theorem deleteCollection_fingerprints (db : DbClient) (tableName : String) :
    (DeleteCollection db tableName).2.tables.fingerprints = db.tables.fingerprints ∨
      (DeleteCollection db tableName).2.tables.fingerprints = [] := by
  simp only [DeleteCollection, DbClient.Exec, DbClient.call, applyStmt]
  cases hf : db.faults db.trace.length with
  | some err => exact Or.inl rfl
  | none =>
    simp only
    by_cases h1 : tableName = "songs"
    · simp [h1]
    · by_cases h2 : tableName = "fingerprints"
      · simp [h2]
      · simp [h1, h2]

theorem reachable_uniqueAddress (db : DbClient) (h : Reachable db) : UniqueAddress db.tables := by
  induction h with
  | empty songs faults trace => exact List.nodup_nil
  | store db m _ ih =>
    unfold UniqueAddress at ih ⊢
    by_cases hs : (StoreFingerprints db m).1 = none
    · rw [(storeFingerprints_ok db m hs).1]
      exact upsertAll_nodup _ m ih
    · rw [storeFingerprints_err db m hs]
      exact ih
  | delete db tableName _ ih =>
    unfold UniqueAddress at ih ⊢
    rcases deleteCollection_fingerprints db tableName with h | h
    · rw [h]; exact ih
    · rw [h]; exact List.nodup_nil

/-! ## The claims -/

/-- C1 (evaluation at a failing input). The filter key "yt" is none of "id",
"ytID", "key", yet it occurs within `FILTER_KEYS`, so `strings.Contains` lets it
pass: `GetSong` hands a `SELECT` with `WHERE yt = ?` to the driver and returns
the wrapped error of the engine, not the error "invalid filter key". -/
theorem getSong_substring_filter_key_reaches_store :
    "yt" ∉ ["id", "ytID", "key"] ∧
      stringsContains FILTER_KEYS "yt" = true ∧
      (GetSong sampleDb "yt" (.text "yt123")).1 =
        (Song.zero, false, some "failed to retrieve song: no such column: yt") ∧
      (GetSong sampleDb "yt" (.text "yt123")).2.trace = [.selectSong "yt" (.text "yt123")] := by
  decide

/-- C2. On an index that satisfies the unique-address constraint, when
`StoreFingerprints` of a batch with distinct addresses returns no error and the
reads that follow meet no storage failure, `GetCouples` on the addresses of the
batch (in any order, repeated or not) returns no error and maps every address
of the batch to the one-element sequence holding the couple of the batch,
whatever the index held at that address before. -/
theorem storeFingerprints_then_getCouples (db : DbClient) (m : List (Nat × Couple))
    (addrs : List Nat) (hU : UniqueAddress db.tables) (hm : (m.map Prod.fst).Nodup)
    (haddrs : ∀ a, a ∈ addrs ↔ a ∈ m.map Prod.fst)
    (hs : (StoreFingerprints db m).1 = none) (hf : NoFaults (StoreFingerprints db m).2) :
    ∃ res, (GetCouples (StoreFingerprints db m).2 addrs).1 = (some res, none) ∧
      (∀ a, a ∈ res.keys ↔ a ∈ m.map Prod.fst) ∧
      ∀ a c, (a, c) ∈ m → res.get? a = some [c] := by
  obtain ⟨res, hres, hk, hin, _, _⟩ :=
    getCouplesLoop_noFaults (StoreFingerprints db m).2 addrs [] hf
  refine ⟨res, hres, ?_, ?_⟩
  · intro a
    rw [hk a, ← haddrs a]
    simp [CoupleMap.keys]
  · intro a c hac
    have ha : a ∈ addrs := (haddrs a).2 (List.mem_map.2 ⟨(a, c), hac, rfl⟩)
    rw [hin a ha, (storeFingerprints_ok db m hs).1]
    simp only [couplesAt]
    rw [upsertAll_filter_of_mem _ m a c hU hm hac]
    rfl

/-- C2, on the scenario of the specification: after storing the couple
(1000, 7) at address 42 in an empty index, `GetCouples [42]` yields the mapping
of 42 to that one couple. -/
theorem storeFingerprints_then_getCouples_witness :
    (StoreFingerprints emptyDb [(42, ⟨1000, 7⟩)]).1 = none ∧
      ∃ res, (GetCouples (StoreFingerprints emptyDb [(42, ⟨1000, 7⟩)]).2 [42]).1 =
          (some res, none) ∧
        (∀ a, a ∈ res.keys ↔ a ∈ [(42, (⟨1000, 7⟩ : Couple))].map Prod.fst) ∧
        ∀ a c, (a, c) ∈ [(42, (⟨1000, 7⟩ : Couple))] → res.get? a = some [c] :=
  ⟨by decide,
    storeFingerprints_then_getCouples emptyDb [(42, ⟨1000, 7⟩)] [42]
      (by simp [UniqueAddress, emptyDb]) (by simp) (by simp) (by decide)
      (fun _ _ => rfl)⟩

/-- C3. `StoreFingerprints` is all-or-nothing. Its driver calls are numbered from
the length of the trace: `BEGIN` is call 0, the write of the entry at position
i of the batch is call i + 1, and `COMMIT` is the call after the last entry.
If any of these calls meets a storage failure, an error is returned; and
whenever an error is returned, the committed tables are those before the call,
so `GetCouples` reads the same as before the call. -/
theorem storeFingerprints_all_or_nothing (db : DbClient) (m : List (Nat × Couple)) :
    ((∃ k, k ≤ m.length + 1 ∧ db.faults (db.trace.length + k) ≠ none) →
        (StoreFingerprints db m).1 ≠ none) ∧
      ((StoreFingerprints db m).1 ≠ none →
        (StoreFingerprints db m).2.tables = db.tables ∧
        ∀ (faults : Nat → Option String) (trace : List Stmt) (addrs : List Nat),
          (GetCouples ⟨(StoreFingerprints db m).2.tables, faults, trace⟩ addrs).1 =
            (GetCouples ⟨db.tables, faults, trace⟩ addrs).1) := by
  constructor
  · rintro ⟨k, hk, hfault⟩ hnone
    exact hfault ((storeFingerprints_ok db m hnone).2.2 k hk)
  · intro herr
    have ht := storeFingerprints_err db m herr
    refine ⟨ht, ?_⟩
    intro faults trace addrs
    rw [ht]

/-- C3, on a batch of two entries whose second write (call 2) fails: an error
is returned and the index still holds its one old row. -/
theorem storeFingerprints_all_or_nothing_witness :
    (StoreFingerprints
        { sampleDb with faults := fun n => if n = 2 then some "disk full" else none }
        [(42, ⟨5, 6⟩), (43, ⟨1, 2⟩)]).1 ≠ none ∧
      (StoreFingerprints
        { sampleDb with faults := fun n => if n = 2 then some "disk full" else none }
        [(42, ⟨5, 6⟩), (43, ⟨1, 2⟩)]).2.tables = sampleDb.tables :=
  have h := storeFingerprints_all_or_nothing
    { sampleDb with faults := fun n => if n = 2 then some "disk full" else none }
    [(42, ⟨5, 6⟩), (43, ⟨1, 2⟩)]
  have herr := h.1 ⟨2, by decide, by decide⟩
  ⟨herr, (h.2 herr).1⟩

/-- C4. When no storage failure occurs, `GetCouples` returns no error and a
mapping whose keys are exactly the requested addresses (each once); every
requested address is mapped to the couples stored at it, in table order, and
an address without rows is mapped to the empty sequence. -/
theorem getCouples_every_requested_address (db : DbClient) (addrs : List Nat)
    (h : NoFaults db) :
    ∃ res, (GetCouples db addrs).1 = (some res, none) ∧
      (∀ a, a ∈ res.keys ↔ a ∈ addrs) ∧ res.keys.Nodup ∧
      (∀ a, a ∈ addrs → res.get? a = some (couplesAt db.tables a)) ∧
      (∀ a, a ∈ addrs → (∀ r ∈ db.tables.fingerprints, r.address ≠ a) →
        res.get? a = some []) := by
  obtain ⟨res, hres, hk, hin, _, hnd⟩ := getCouplesLoop_noFaults db addrs [] h
  refine ⟨res, hres, ?_, hnd List.nodup_nil, hin, ?_⟩
  · intro a
    rw [hk a]
    simp [CoupleMap.keys]
  · intro a ha hrows
    rw [hin a ha]
    simp only [couplesAt]
    rw [filter_of_not_mem]
    · rfl
    · intro hmem
      obtain ⟨r, hr, hra⟩ := List.mem_map.1 hmem
      exact hrows r hr hra

/-- C4, on the sample index with one row at address 42: the request
[42, 5, 42] yields the keys 42 and 5, with 5 mapped to the empty sequence. -/
theorem getCouples_every_requested_address_witness :
    NoFaults sampleDb ∧
      ∃ res, (GetCouples sampleDb [42, 5, 42]).1 = (some res, none) ∧
        (∀ a, a ∈ res.keys ↔ a ∈ [42, 5, 42]) ∧ res.keys.Nodup ∧
        (∀ a, a ∈ [42, 5, 42] → res.get? a = some (couplesAt sampleDb.tables a)) ∧
        (∀ a, a ∈ [42, 5, 42] → (∀ r ∈ sampleDb.tables.fingerprints, r.address ≠ a) →
          res.get? a = some []) :=
  ⟨fun _ _ => rfl, getCouples_every_requested_address sampleDb [42, 5, 42] (fun _ _ => rfl)⟩

/-- C8 (evaluation at a failing input). The sample index holds the couple
(1000, 7) at address 42. When the first `rows.Next()` of the lookup meets a
disk failure, `GetCouples [42]` returns a nil error together with a mapping of
42 to the empty sequence: the loop ends as if the rows were exhausted and
`rows.Err()` is never read. -/
theorem getCouples_iteration_failure_unreported :
    couplesAt flakyDb.tables 42 = [⟨1000, 7⟩] ∧
      flakyDb.faults 1 = some "disk I/O error" ∧
      (GetCouples flakyDb [42]).2.trace = [.selectCouples 42, .rowsNext] ∧
      (GetCouples flakyDb [42]).1 = (some [(42, [])], none) := by
  decide

/-- C5. On a store without storage failures whose catalog has unique keys and
does not hold the key derived from (title, artist), two calls of `RegisterSong`
with that title and artist, any two candidate identifiers and any two source
identifiers both return their candidate and no error; afterwards exactly one
row carries the derived key, the keys are still unique, and `TotalSongs`
returns one more than before the first call. -/
theorem registerSong_twice_adds_one_row (K : String → String → String) (db : DbClient)
    (id1 id2 : Nat) (title artist yt1 yt2 : String) (hf : NoFaults db)
    (hU : UniqueKey db.tables) (habs : ∀ r ∈ db.tables.songs, r.key ≠ K title artist) :
    (RegisterSong K db id1 title artist yt1).1 = (id1, none) ∧
      (RegisterSong K (RegisterSong K db id1 title artist yt1).2 id2 title artist yt2).1 =
        (id2, none) ∧
      ((RegisterSong K (RegisterSong K db id1 title artist yt1).2 id2 title artist
        yt2).2.tables.songs.filter (fun r => r.key == K title artist)).length = 1 ∧
      UniqueKey (RegisterSong K (RegisterSong K db id1 title artist yt1).2 id2 title artist
        yt2).2.tables ∧
      (TotalSongs db).1.2 = none ∧
      (TotalSongs (RegisterSong K (RegisterSong K db id1 title artist yt1).2 id2 title artist
        yt2).2).1 = ((TotalSongs db).1.1 + 1, none) := by
  obtain ⟨a1, a2, a3⟩ := registerSong_noFaults K db id1 title artist yt1 hf
  obtain ⟨b1, b2, b3⟩ := registerSong_noFaults K
    (RegisterSong K db id1 title artist yt1).2 id2 title artist yt2 a3
  rw [insertSongRow_absent _ _ habs] at a2
  have hsongs : (RegisterSong K (RegisterSong K db id1 title artist yt1).2 id2 title artist
      yt2).2.tables.songs = db.tables.songs ++ [⟨id1, title, artist, yt1, K title artist⟩] := by
    rw [b2, a2]
    simp only
    apply insertSongRow_present
    exact ⟨⟨id1, title, artist, yt1, K title artist⟩, by simp, rfl⟩
  have hnone : db.tables.songs.filter (fun r => r.key == K title artist) = [] := by
    rw [List.filter_eq_nil_iff]
    intro r hr
    simpa using habs r hr
  refine ⟨a1, b1, ?_, ?_, ?_, ?_⟩
  · rw [hsongs, List.filter_append, hnone]
    simp [List.filter_cons]
  · unfold UniqueKey at hU ⊢
    rw [hsongs, List.map_append, List.nodup_append]
    refine ⟨hU, List.nodup_singleton _, ?_⟩
    intro k hk1 hk2
    simp only [List.map_cons, List.map_nil, List.mem_singleton] at hk2
    obtain ⟨r, hr, hrk⟩ := List.mem_map.1 hk1
    exact habs r hr (hrk.trans hk2)
  · rw [totalSongs_noFaults db hf]
  · rw [totalSongs_noFaults _ b3, totalSongs_noFaults db hf, hsongs]
    simp

/-- C5, on the empty catalog: registering ("Song A", "Artist X") twice, with
candidates 7 and 8, leaves one row and a count of one. -/
theorem registerSong_twice_adds_one_row_witness :
    (RegisterSong sampleKey emptyDb 7 "Song A" "Artist X" "yt123").1 = (7, none) ∧
      (RegisterSong sampleKey (RegisterSong sampleKey emptyDb 7 "Song A" "Artist X" "yt123").2 8
        "Song A" "Artist X" "yt456").1 = (8, none) ∧
      ((RegisterSong sampleKey (RegisterSong sampleKey emptyDb 7 "Song A" "Artist X" "yt123").2 8
        "Song A" "Artist X" "yt456").2.tables.songs.filter
          (fun r => r.key == sampleKey "Song A" "Artist X")).length = 1 ∧
      UniqueKey (RegisterSong sampleKey
        (RegisterSong sampleKey emptyDb 7 "Song A" "Artist X" "yt123").2 8
        "Song A" "Artist X" "yt456").2.tables ∧
      (TotalSongs emptyDb).1.2 = none ∧
      (TotalSongs (RegisterSong sampleKey
        (RegisterSong sampleKey emptyDb 7 "Song A" "Artist X" "yt123").2 8
        "Song A" "Artist X" "yt456").2).1 = ((TotalSongs emptyDb).1.1 + 1, none) :=
  registerSong_twice_adds_one_row sampleKey emptyDb 7 8 "Song A" "Artist X" "yt123" "yt456"
    (fun _ _ => rfl) (by simp [UniqueKey, emptyDb]) (by simp [emptyDb])

/-- C6. On a store without storage failures whose catalog already holds a song
with the key derived from (title, artist), `RegisterSong` returns no error and
the newly generated candidate identifier, and leaves the tables unchanged;
hence, when no stored row has the candidate as its id, `GetSongByID` of the
returned identifier reports the zero song, exists = false and no error. -/
theorem registerSong_existing_key_returns_candidate (K : String → String → String)
    (db : DbClient) (songID : Nat) (title artist ytID : String) (hf : NoFaults db)
    (hex : ∃ r ∈ db.tables.songs, r.key = K title artist) :
    (RegisterSong K db songID title artist ytID).1 = (songID, none) ∧
      (RegisterSong K db songID title artist ytID).2.tables = db.tables ∧
      ((∀ r ∈ db.tables.songs, r.id ≠ songID) →
        (GetSongByID (RegisterSong K db songID title artist ytID).2
          (RegisterSong K db songID title artist ytID).1.1).1 = (Song.zero, false, none)) := by
  obtain ⟨a1, a2, a3⟩ := registerSong_noFaults K db songID title artist ytID hf
  rw [insertSongRow_present _ _ hex] at a2
  refine ⟨a1, a2, ?_⟩
  intro hid
  rw [getSongByID_eq _ _ (a3 _ le_rfl), a2, a1]
  have hnone : db.tables.songs.find? (fun r => r.id == songID) = none := by
    rw [List.find?_eq_none]
    intro r hr
    simpa using hid r hr
  simp only [hnone]

/-- C6, on the sample catalog, whose one song has id 7: registering the same
title and artist with candidate 9 returns 9, and no song has id 9. -/
theorem registerSong_existing_key_returns_candidate_witness :
    (RegisterSong sampleKey sampleDb 9 "Song A" "Artist X" "yt999").1 = (9, none) ∧
      (RegisterSong sampleKey sampleDb 9 "Song A" "Artist X" "yt999").2.tables =
        sampleDb.tables ∧
      (GetSongByID (RegisterSong sampleKey sampleDb 9 "Song A" "Artist X" "yt999").2
        (RegisterSong sampleKey sampleDb 9 "Song A" "Artist X" "yt999").1.1).1 =
        (Song.zero, false, none) :=
  have h := registerSong_existing_key_returns_candidate sampleKey sampleDb 9 "Song A" "Artist X"
    "yt999" (fun _ _ => rfl) ⟨⟨7, "Song A", "Artist X", "yt123", "Song A---Artist X"⟩,
      by simp [sampleDb], by decide⟩
  ⟨h.1, h.2.1, h.2.2 (by decide)⟩

/-- C7. On a store without storage failures, a lookup by an id, a source
identifier or a key that no stored row carries returns the zero song,
exists = false and a nil error, for `GetSongByID`, `GetSongByYTID` and
`GetSongByKey` alike. -/
theorem getSongBy_miss_is_not_an_error (db : DbClient) (hf : NoFaults db) :
    (∀ songID, (∀ r ∈ db.tables.songs, r.id ≠ songID) →
        (GetSongByID db songID).1 = (Song.zero, false, none)) ∧
      (∀ ytID, (∀ r ∈ db.tables.songs, r.ytID ≠ ytID) →
        (GetSongByYTID db ytID).1 = (Song.zero, false, none)) ∧
      (∀ key, (∀ r ∈ db.tables.songs, r.key ≠ key) →
        (GetSongByKey db key).1 = (Song.zero, false, none)) := by
  have h0 : db.faults db.trace.length = none := hf _ le_rfl
  refine ⟨?_, ?_, ?_⟩
  · intro songID hmiss
    rw [getSongByID_eq db songID h0]
    have hnone : db.tables.songs.find? (fun r => r.id == songID) = none := by
      rw [List.find?_eq_none]
      intro r hr
      simpa using hmiss r hr
    simp only [hnone]
  · intro ytID hmiss
    rw [getSongByYTID_eq db ytID h0]
    have hnone : db.tables.songs.find? (fun r => r.ytID == ytID) = none := by
      rw [List.find?_eq_none]
      intro r hr
      simpa using hmiss r hr
    simp only [hnone]
  · intro key hmiss
    rw [getSongByKey_eq db key h0]
    have hnone : db.tables.songs.find? (fun r => r.key == key) = none := by
      rw [List.find?_eq_none]
      intro r hr
      simpa using hmiss r hr
    simp only [hnone]

/-- C7, on the sample catalog: id 8, source identifier "nope" and key "nope"
are all misses without error. -/
theorem getSongBy_miss_is_not_an_error_witness :
    NoFaults sampleDb ∧
      (GetSongByID sampleDb 8).1 = (Song.zero, false, none) ∧
      (GetSongByYTID sampleDb "nope").1 = (Song.zero, false, none) ∧
      (GetSongByKey sampleDb "nope").1 = (Song.zero, false, none) :=
  have h := getSongBy_miss_is_not_an_error sampleDb (fun _ _ => rfl)
  ⟨fun _ _ => rfl, h.1 8 (by decide), h.2.1 "nope" (by decide), h.2.2 "nope" (by decide)⟩

/-- C9. In every state reached from an empty index by `StoreFingerprints` and
`DeleteCollection` calls (failed ones included), no two rows share an address.
Hence every sequence in a mapping returned by `GetCouples` has length at most
1, and without storage failures `GetCouples` does return such a mapping for
every request. A later `StoreFingerprints` of a batch with distinct addresses
that returns no error leaves, at each address of the batch, exactly the one
couple of the batch: an address already present is overwritten, not given a
second couple; and without storage failures that call returns no error. -/
theorem reachable_one_row_per_address (db : DbClient) (h : Reachable db) :
    UniqueAddress db.tables ∧
      (∀ addrs res, (GetCouples db addrs).1.1 = some res →
        ∀ a cs, res.get? a = some cs → cs.length ≤ 1) ∧
      (NoFaults db → ∀ addrs, ∃ res, (GetCouples db addrs).1 = (some res, none) ∧
        ∀ a, a ∈ addrs → ∃ cs, res.get? a = some cs ∧ cs.length ≤ 1) ∧
      (∀ (m : List (Nat × Couple)) a c, (m.map Prod.fst).Nodup → (a, c) ∈ m →
        (NoFaults db → (StoreFingerprints db m).1 = none) ∧
        ((StoreFingerprints db m).1 = none →
          couplesAt (StoreFingerprints db m).2.tables a = [c])) := by
  have hU := reachable_uniqueAddress db h
  have hb : ∀ a, (db.tables.fingerprints.filter (fun r => r.address == a)).length ≤ 1 :=
    fun a => filter_length_le_one _ a hU
  refine ⟨hU, ?_, ?_, ?_⟩
  · intro addrs res hres a cs hcs
    rcases getCouplesLoop_bound db addrs [] res hb hres a cs hcs with h1 | h1
    · simp [CoupleMap.get?] at h1
    · exact h1
  · intro hf addrs
    obtain ⟨res, hres, _, hin, _, _⟩ := getCouplesLoop_noFaults db addrs [] hf
    refine ⟨res, hres, ?_⟩
    intro a ha
    refine ⟨_, hin a ha, ?_⟩
    simpa [couplesAt] using hb a
  · intro m a c hm hac
    refine ⟨fun hf => (storeFingerprints_noFaults db m hf).1, ?_⟩
    intro hs
    rw [(storeFingerprints_ok db m hs).1]
    simp only [couplesAt]
    rw [upsertAll_filter_of_mem _ m a c hU hm hac]
    rfl

/-- C9, on the index reached by storing (1000, 7) at address 42: a second
store of (2000, 8) at address 42 succeeds and leaves the one couple (2000, 8). -/
theorem reachable_one_row_per_address_witness :
    Reachable (StoreFingerprints emptyDb [(42, ⟨1000, 7⟩)]).2 ∧
      couplesAt (StoreFingerprints emptyDb [(42, ⟨1000, 7⟩)]).2.tables 42 = [⟨1000, 7⟩] ∧
      (StoreFingerprints (StoreFingerprints emptyDb [(42, ⟨1000, 7⟩)]).2
        [(42, ⟨2000, 8⟩)]).1 = none ∧
      couplesAt (StoreFingerprints (StoreFingerprints emptyDb [(42, ⟨1000, 7⟩)]).2
        [(42, ⟨2000, 8⟩)]).2.tables 42 = [⟨2000, 8⟩] :=
  have hr : Reachable (StoreFingerprints emptyDb [(42, ⟨1000, 7⟩)]).2 :=
    Reachable.store emptyDb [(42, ⟨1000, 7⟩)] (Reachable.empty [] (fun _ => none) [])
  have h := (reachable_one_row_per_address _ hr).2.2.2 [(42, ⟨2000, 8⟩)] 42 ⟨2000, 8⟩
    (by simp) (by simp)
  have hs := h.1 (fun _ _ => rfl)
  ⟨hr, by decide, hs, h.2 hs⟩

/-- C10. Registration round trip. When the catalog does not hold the key k
derived from (title, artist), `RegisterSong` returns no error and the lookups
that follow meet no storage failure, then the returned identifier is the
candidate, `GetSongByKey k` returns the song (title, artist, ytID) with
exists = true and no error, and so does `GetSongByID` of the returned
identifier provided no row stored before has that id. -/
theorem registerSong_then_lookup (K : String → String → String) (db : DbClient)
    (songID : Nat) (title artist ytID : String)
    (habs : ∀ r ∈ db.tables.songs, r.key ≠ K title artist)
    (hr : (RegisterSong K db songID title artist ytID).1.2 = none)
    (hf : NoFaults (RegisterSong K db songID title artist ytID).2) :
    (RegisterSong K db songID title artist ytID).1 = (songID, none) ∧
      (GetSongByKey (RegisterSong K db songID title artist ytID).2 (K title artist)).1 =
        (⟨title, artist, ytID⟩, true, none) ∧
      ((∀ r ∈ db.tables.songs, r.id ≠ songID) →
        (GetSongByID (RegisterSong K db songID title artist ytID).2
          (RegisterSong K db songID title artist ytID).1.1).1 =
          (⟨title, artist, ytID⟩, true, none)) := by
  obtain ⟨a1, a2⟩ := registerSong_ok K db songID title artist ytID hr
  rw [insertSongRow_absent _ _ habs] at a2
  have h0 := hf _ le_rfl
  refine ⟨Prod.ext a1 hr, ?_, ?_⟩
  · rw [getSongByKey_eq _ _ h0, a2]
    simp only
    rw [find?_append_new _ _ _ (by intro r hr; simpa using habs r hr) (by simp)]
  · intro hid
    rw [getSongByID_eq _ _ h0, a2, a1]
    simp only
    rw [find?_append_new _ _ _ (by intro r hr; simpa using hid r hr) (by simp)]

/-- C10, on the scenario of the specification: registering
("Song A", "Artist X", "yt123") with candidate 7 in the empty catalog, then
looking it up by key and by id. -/
theorem registerSong_then_lookup_witness :
    (RegisterSong sampleKey emptyDb 7 "Song A" "Artist X" "yt123").1 = (7, none) ∧
      (GetSongByKey (RegisterSong sampleKey emptyDb 7 "Song A" "Artist X" "yt123").2
        (sampleKey "Song A" "Artist X")).1 = (⟨"Song A", "Artist X", "yt123"⟩, true, none) ∧
      (GetSongByID (RegisterSong sampleKey emptyDb 7 "Song A" "Artist X" "yt123").2
        (RegisterSong sampleKey emptyDb 7 "Song A" "Artist X" "yt123").1.1).1 =
        (⟨"Song A", "Artist X", "yt123"⟩, true, none) :=
  have h := registerSong_then_lookup sampleKey emptyDb 7 "Song A" "Artist X" "yt123"
    (by simp [emptyDb]) (by decide) (fun _ _ => rfl)
  ⟨h.1, h.2.1, h.2.2 (by simp [emptyDb])⟩

end SeekTune
